import Mathlib

/-!
Shallow embedding of `uhelpers` (spacetelescope/uhelpers): the CasJobs
query-status logic of `archive_helpers.py`, the cache-or-fetch wrappers
`return_gacs_query_as_table` and `return_vizier_catalog_as_table`, and the
statistics helpers of `statistics_helpers.py`.

External services and libraries (the CasJobs server, astropy `Time`,
`scipy` distribution functions, the `vizquery` executable, the GACS
archive) are modelled as explicit parameters; file contents on disk are
modelled as `Option` fields of small state structures. Numbers are `ℚ`
so that every definition is executable.
-/

namespace Uhelpers

/-- The set of characters removed by Python's `str.strip()` (ASCII whitespace). -/
def py_isspace (c : Char) : Bool :=
  c = ' ' || c = '\t' || c = '\n' || c = '\r' || c = '\x0b' || c = '\x0c'

/-- Python's `s.strip()`: drop leading and trailing whitespace. -/
def pyStrip (s : String) : String :=
  ⟨((s.data.dropWhile py_isspace).reverse.dropWhile py_isspace).reverse⟩

/-- One entry of the CasJobs job-history mapping: the fields of
`jobs.job_info()` used by `archive_helpers.py`.  `TimeSubmit` is kept
abstract (type `τ`); astropy's `Time(·, format='isot').mjd` conversion is a
parameter `mjd : τ → ℚ` of the functions below. -/
structure CasJob (τ : Type) where
  Query : String
  Status : String
  TimeSubmit : τ
deriving DecidableEq, Repr

/-- `np.argmax` on a list of rationals: index of the first occurrence of the
maximum (`np.argmax` returns the first maximal index). -/
def np_argmax : List ℚ → ℕ
  | [] => 0
  | [_] => 0
  | x :: y :: ys =>
    if x < (y :: ys).getD (np_argmax (y :: ys)) 0 then np_argmax (y :: ys) + 1 else 0

theorem np_argmax_cons₂ (x y : ℚ) (ys : List ℚ) :
    np_argmax (x :: y :: ys) =
      if x < (y :: ys).getD (np_argmax (y :: ys)) 0 then np_argmax (y :: ys) + 1
      else 0 := by
  rfl

/-- `find_latest_query(query, job_info)` from `archive_helpers.py`:
collect the indices whose stripped `Query` field equals the stripped query;
return `none` if there are no matches, the unique index if there is one
match, and otherwise the index whose `TimeSubmit` (converted to MJD) is
maximal, ties resolved as `np.argmax` does. -/
def find_latest_query {τ : Type} (mjd : τ → ℚ) (query : String)
    (job_info : List (CasJob τ)) : Option ℕ :=
  let index_list := job_info.enum.filter fun p => pyStrip p.2.Query = pyStrip query
  match index_list with
  | [] => none
  | [single] => some single.1
  | first :: rest =>
    let time_submit := (first :: rest).map fun p => mjd p.2.TimeSubmit
    let latest_index := np_argmax time_submit
    some (((first :: rest).getD latest_index first).1)

/-- `np_argmax` of a nonempty list is a valid index. -/
theorem np_argmax_lt (l : List ℚ) (h : l ≠ []) : np_argmax l < l.length := by
  induction l with
  | nil => exact absurd rfl h
  | cons x xs ih =>
    cases xs with
    | nil => simp [np_argmax]
    | cons y ys =>
      have hlt := ih (by simp)
      rw [np_argmax_cons₂]
      split
      · simpa using Nat.succ_lt_succ hlt
      · simp

/-- The element at `np_argmax` dominates every element of the list. -/
theorem np_argmax_max (l : List ℚ) (x : ℚ) (hx : x ∈ l) :
    x ≤ l.getD (np_argmax l) 0 := by
  induction l with
  | nil => simp at hx
  | cons a xs ih =>
    cases xs with
    | nil =>
      rw [List.mem_singleton] at hx
      simp [np_argmax, hx]
    | cons y ys =>
      rw [np_argmax_cons₂]
      split
      · next hlt =>
          rw [List.getD_cons_succ]
          rcases List.mem_cons.mp hx with rfl | hmem
          · exact le_of_lt hlt
          · exact ih hmem
      · next hge =>
          rw [List.getD_cons_zero]
          rcases List.mem_cons.mp hx with rfl | hmem
          · exact le_refl x
          · exact le_trans (ih hmem) (not_lt.mp hge)

/-- Membership in the filtered-enumeration list used by `find_latest_query`:
a pair `(i, job)` survives exactly when `job` sits at index `i` of the job
history and its stripped query matches. -/
theorem mem_filter_enum {τ : Type} (query : String) (job_info : List (CasJob τ))
    (p : ℕ × CasJob τ) :
    p ∈ job_info.enum.filter (fun q => pyStrip q.2.Query = pyStrip query) ↔
      job_info[p.1]? = some p.2 ∧ pyStrip p.2.Query = pyStrip query := by
  rcases p with ⟨i, job⟩
  simp [List.mem_filter, List.mk_mem_enum_iff_getElem?]

/-- The indices recorded in the filtered enumeration are pairwise distinct. -/
theorem filter_enum_fst_nodup {τ : Type} (query : String) (job_info : List (CasJob τ)) :
    ((job_info.enum.filter (fun q => pyStrip q.2.Query = pyStrip query)).map
      Prod.fst).Nodup :=
  ((List.filter_sublist _).map Prod.fst).nodup (List.nodup_enum_map_fst _)

/-- Unfolding `find_latest_query` when the filtered enumeration is empty. -/
theorem find_latest_query_of_filter_nil {τ : Type} (mjd : τ → ℚ) (query : String)
    (job_info : List (CasJob τ))
    (hL : job_info.enum.filter (fun q => pyStrip q.2.Query = pyStrip query) = []) :
    find_latest_query mjd query job_info = none := by
  rw [find_latest_query, hL]

/-- Unfolding `find_latest_query` when exactly one enumerated entry matches. -/
theorem find_latest_query_of_filter_singleton {τ : Type} (mjd : τ → ℚ)
    (query : String) (job_info : List (CasJob τ)) (p : ℕ × CasJob τ)
    (hL : job_info.enum.filter (fun q => pyStrip q.2.Query = pyStrip query) = [p]) :
    find_latest_query mjd query job_info = some p.1 := by
  rw [find_latest_query, hL]

/-- Unfolding `find_latest_query` when at least two enumerated entries match. -/
theorem find_latest_query_of_filter_cons₂ {τ : Type} (mjd : τ → ℚ)
    (query : String) (job_info : List (CasJob τ)) (p q : ℕ × CasJob τ)
    (rest : List (ℕ × CasJob τ))
    (hL : job_info.enum.filter (fun r => pyStrip r.2.Query = pyStrip query) =
      p :: q :: rest) :
    find_latest_query mjd query job_info =
      some (((p :: q :: rest).getD
        (np_argmax ((p :: q :: rest).map fun r => mjd r.2.TimeSubmit)) p).1) := by
  rw [find_latest_query, hL]

/-- `find_latest_query` answers `none` exactly when no stripped entry matches. -/
theorem find_latest_query_eq_none_iff {τ : Type} (mjd : τ → ℚ) (query : String)
    (job_info : List (CasJob τ)) :
    find_latest_query mjd query job_info = none ↔
      ∀ job ∈ job_info, pyStrip job.Query ≠ pyStrip query := by
  have hnone : find_latest_query mjd query job_info = none ↔
      job_info.enum.filter (fun q => pyStrip q.2.Query = pyStrip query) = [] := by
    constructor
    · intro h
      rcases hL : job_info.enum.filter (fun q => pyStrip q.2.Query = pyStrip query)
        with _ | ⟨first, _ | ⟨second, rest⟩⟩
      · exact hL
      · rw [find_latest_query_of_filter_singleton mjd query job_info first hL] at h
        exact absurd h (by simp)
      · rw [find_latest_query_of_filter_cons₂ mjd query job_info first second rest hL]
          at h
        exact absurd h (by simp)
    · intro hL
      exact find_latest_query_of_filter_nil mjd query job_info hL
  rw [hnone, List.filter_eq_nil_iff]
  constructor
  · intro h job hjob hq
    rcases List.mem_iff_getElem?.mp hjob with ⟨i, hi⟩
    exact h (i, job) (List.mk_mem_enum_iff_getElem?.mpr hi) (by simpa using hq)
  · intro h p hp hq
    have hmem : p.2 ∈ job_info := by
      rcases p with ⟨i, job⟩
      exact List.mem_iff_getElem?.mpr ⟨i, List.mk_mem_enum_iff_getElem?.mp hp⟩
    exact h p.2 hmem (by simpa using hq)

/-- Whenever `find_latest_query` answers `some i`, index `i` holds a matching
job whose submission time (as MJD) is maximal among all matching jobs. -/
theorem find_latest_query_eq_some {τ : Type} (mjd : τ → ℚ) (query : String)
    (job_info : List (CasJob τ)) (i : ℕ)
    (h : find_latest_query mjd query job_info = some i) :
    ∃ job : CasJob τ, job_info[i]? = some job ∧ pyStrip job.Query = pyStrip query ∧
      ∀ (j : ℕ) (job2 : CasJob τ), job_info[j]? = some job2 →
        pyStrip job2.Query = pyStrip query →
        mjd job2.TimeSubmit ≤ mjd job.TimeSubmit := by
  rcases hL : job_info.enum.filter (fun q => pyStrip q.2.Query = pyStrip query) with
    _ | ⟨first, _ | ⟨second, rest⟩⟩
  · rw [find_latest_query_of_filter_nil mjd query job_info hL] at h
    exact absurd h (by simp)
  · rw [find_latest_query_of_filter_singleton mjd query job_info first hL] at h
    simp only [Option.some.injEq] at h
    have hfacts := (mem_filter_enum query job_info first).mp
      (by rw [hL]; exact List.mem_cons_self _ _)
    refine ⟨first.2, ?_, hfacts.2, ?_⟩
    · rw [← h]; exact hfacts.1
    · intro j job2 hj hq
      have hmem : (j, job2) ∈ ([first] : List (ℕ × CasJob τ)) := by
        rw [← hL]; exact (mem_filter_enum query job_info (j, job2)).mpr ⟨hj, hq⟩
      rw [List.mem_singleton] at hmem
      exact le_of_eq (by rw [← hmem])
  · rw [find_latest_query_of_filter_cons₂ mjd query job_info first second rest hL]
      at h
    set jm := np_argmax ((first :: second :: rest).map fun r => mjd r.2.TimeSubmit)
      with hjm
    set p0 := (first :: second :: rest).getD jm first with hp0def
    simp only [Option.some.injEq] at h
    have hjlt : jm < (first :: second :: rest).length := by
      have hlen : ((first :: second :: rest).map
          fun r => mjd r.2.TimeSubmit).length = (first :: second :: rest).length := by
        simp
      rw [hjm, ← hlen]
      exact np_argmax_lt _ (by simp)
    have hmaplt : jm < ((first :: second :: rest).map
        fun r => mjd r.2.TimeSubmit).length := by simpa using hjlt
    have hp0mem : p0 ∈ (first :: second :: rest) := by
      rw [hp0def, List.getD_eq_getElem _ _ hjlt]
      exact List.getElem_mem _
    have hfacts := (mem_filter_enum query job_info p0).mp (by rw [hL]; exact hp0mem)
    refine ⟨p0.2, ?_, hfacts.2, ?_⟩
    · rw [← h]; exact hfacts.1
    · intro j job2 hj hq
      have hmem : (j, job2) ∈ (first :: second :: rest) := by
        rw [← hL]
        exact (mem_filter_enum query job_info (j, job2)).mpr ⟨hj, hq⟩
      have htime : mjd job2.TimeSubmit ∈
          (first :: second :: rest).map fun r => mjd r.2.TimeSubmit :=
        List.mem_map.mpr ⟨(j, job2), hmem, rfl⟩
      have hmax := np_argmax_max _ _ htime
      rw [← hjm] at hmax
      have hgoal : ((first :: second :: rest).map fun r => mjd r.2.TimeSubmit).getD
          jm 0 = mjd p0.2.TimeSubmit := by
        rw [hp0def, List.getD_eq_getElem _ _ hmaplt,
          List.getD_eq_getElem _ _ hjlt, List.getElem_map]
      rw [hgoal] at hmax
      exact hmax

/-- When exactly one entry of the job history matches the stripped query,
`find_latest_query` returns that entry's index. -/
theorem find_latest_query_unique {τ : Type} (mjd : τ → ℚ) (query : String)
    (job_info : List (CasJob τ)) (i : ℕ) (job : CasJob τ)
    (hi : job_info[i]? = some job) (hq : pyStrip job.Query = pyStrip query)
    (huniq : ∀ (j : ℕ) (job2 : CasJob τ), job_info[j]? = some job2 →
      pyStrip job2.Query = pyStrip query → j = i) :
    find_latest_query mjd query job_info = some i := by
  have hifst : ∀ p ∈ job_info.enum.filter
      (fun q => pyStrip q.2.Query = pyStrip query), p.1 = i := by
    intro p hp
    have := (mem_filter_enum query job_info p).mp hp
    exact huniq p.1 p.2 this.1 this.2
  have hmem : (i, job) ∈ job_info.enum.filter
      (fun q => pyStrip q.2.Query = pyStrip query) :=
    (mem_filter_enum query job_info (i, job)).mpr ⟨hi, hq⟩
  have hnodup := filter_enum_fst_nodup query job_info
  rcases hL : job_info.enum.filter (fun q => pyStrip q.2.Query = pyStrip query) with
    _ | ⟨first, _ | ⟨second, rest⟩⟩
  · rw [hL] at hmem; simp at hmem
  · rw [find_latest_query_of_filter_singleton mjd query job_info first hL]
    rw [hifst first (by rw [hL]; exact List.mem_cons_self _ _)]
  · exfalso
    have h1 : first.1 = i := hifst first
      (by rw [hL]; exact List.mem_cons_self _ _)
    have h2 : second.1 = i := hifst second
      (by rw [hL]; exact List.mem_cons_of_mem _ (List.mem_cons_self _ _))
    rw [hL] at hnodup
    simp only [List.map_cons, List.nodup_cons] at hnodup
    exact hnodup.1 (by rw [h1, ← h2]; exact List.mem_cons_self _ _)

/-- Result of one call to `execute_casjobs_query`: the returned
`job_is_ready` flag (or the raised exception's message), whether a job was
submitted to the queue, and whether the result table was downloaded. -/
structure CasOutcome where
  result : Except String ℕ
  submitted : Bool
  downloaded : Bool
deriving Repr

/-- Tail of `execute_casjobs_query` (from the `if overwrite_casjobs_query:`
line onward): force `submit_query` when overwriting, then drop the table,
submit the job and clear `job_is_ready` when `submit_query == 1`. -/
def cas_finish (overwrite_casjobs_query : Bool) (job_is_ready submit_query : ℕ)
    (downloaded : Bool) : CasOutcome :=
  let sq := if overwrite_casjobs_query then 1 else submit_query
  if sq = 1 then ⟨Except.ok 0, true, downloaded⟩
  else ⟨Except.ok job_is_ready, false, downloaded⟩

/-- `execute_casjobs_query` from `archive_helpers.py`.  The CasJobs service
is abstracted: `job_info_raw` is what `jobs.job_info()` returns (the code
reverses it so that the latest job comes first), and `download_outcome` is
the outcome of `jobs.request_and_get_output` (an `Except.error e` models the
caught exception `e`).  `verbose` printing is dropped; `out_file` only names
the download target, so the download effect is recorded as the `downloaded`
flag. -/
def execute_casjobs_query {τ : Type} (mjd : τ → ℚ) (query table_name : String)
    (overwrite_casjobs_query download_result : Bool)
    (job_info_raw : List (CasJob τ)) (download_outcome : Except String Unit) :
    CasOutcome :=
  let job_info := job_info_raw.reverse
  match find_latest_query mjd query job_info with
  | none =>
    -- query has never been submitted
    cas_finish overwrite_casjobs_query 1 1 false
  | some job_index =>
    match job_info[job_index]? with
    | none => ⟨Except.error "IndexError", false, false⟩
    | some job =>
      if job.Status = "0" ∨ job.Status = "1" then
        -- job still in the works, do nothing
        cas_finish overwrite_casjobs_query 0 0 false
      else if job.Status = "5" ∧ ¬overwrite_casjobs_query then
        -- query has finished
        if download_result then
          match download_outcome with
          | Except.ok _ => cas_finish overwrite_casjobs_query 1 0 true
          | Except.error e =>
            ⟨Except.error ("casjobs table download failed with message: " ++ e ++
              "\nPlease check that table " ++ table_name ++ " is not empty."),
              false, false⟩
        else cas_finish overwrite_casjobs_query 1 0 false
      else if job.Status = "2" ∨ job.Status = "3" ∨ job.Status = "4" then
        cas_finish overwrite_casjobs_query 1 1 false
      else cas_finish overwrite_casjobs_query 1 0 false

/-- `inspect_casjobs_query` from `archive_helpers.py`: reverse the job
history and look up the most recent matching job. -/
def inspect_casjobs_query {τ : Type} (mjd : τ → ℚ) (query : String)
    (job_info_raw : List (CasJob τ)) : Option ℕ :=
  find_latest_query mjd query job_info_raw.reverse

/-- Unfolding `execute_casjobs_query` when no previous submission matches. -/
theorem execute_casjobs_query_of_find_none {τ : Type} (mjd : τ → ℚ)
    (query table_name : String) (ow dr : Bool) (job_info_raw : List (CasJob τ))
    (dl : Except String Unit)
    (hfind : find_latest_query mjd query job_info_raw.reverse = none) :
    execute_casjobs_query mjd query table_name ow dr job_info_raw dl =
      cas_finish ow 1 1 false := by
  unfold execute_casjobs_query
  simp only [hfind]

/-- Unfolding `execute_casjobs_query` when the latest matching job exists:
the remaining behaviour is the status-code dispatch of the source. -/
theorem execute_casjobs_query_of_find_some {τ : Type} (mjd : τ → ℚ)
    (query table_name : String) (ow dr : Bool) (job_info_raw : List (CasJob τ))
    (dl : Except String Unit) (i : ℕ) (job : CasJob τ)
    (hfind : find_latest_query mjd query job_info_raw.reverse = some i)
    (hget : job_info_raw.reverse[i]? = some job) :
    execute_casjobs_query mjd query table_name ow dr job_info_raw dl =
      (if job.Status = "0" ∨ job.Status = "1" then cas_finish ow 0 0 false
       else if job.Status = "5" ∧ ¬ow then
         (if dr then
            (match dl with
             | Except.ok _ => cas_finish ow 1 0 true
             | Except.error e =>
               ⟨Except.error ("casjobs table download failed with message: " ++ e ++
                 "\nPlease check that table " ++ table_name ++ " is not empty."),
                 false, false⟩)
          else cas_finish ow 1 0 false)
       else if job.Status = "2" ∨ job.Status = "3" ∨ job.Status = "4" then
         cas_finish ow 1 1 false
       else cas_finish ow 1 0 false) := by
  unfold execute_casjobs_query
  simp only [hfind, hget]

/-- C2: `find_latest_query` returns `None` exactly when no job-history entry
has a `Query` field equal to the query after stripping whitespace from both;
when exactly one entry matches it returns that entry's index; and whenever it
returns an index, that index holds a matching entry whose `TimeSubmit`
timestamp (converted to MJD) is at least as recent as that of every matching
entry. -/
theorem find_latest_query_spec {τ : Type} (mjd : τ → ℚ) (query : String)
    (job_info : List (CasJob τ)) :
    (find_latest_query mjd query job_info = none ↔
      ∀ job ∈ job_info, pyStrip job.Query ≠ pyStrip query)
    ∧ (∀ (i : ℕ) (job : CasJob τ), job_info[i]? = some job →
        pyStrip job.Query = pyStrip query →
        (∀ (j : ℕ) (job2 : CasJob τ), job_info[j]? = some job2 →
          pyStrip job2.Query = pyStrip query → j = i) →
        find_latest_query mjd query job_info = some i)
    ∧ (∀ i : ℕ, find_latest_query mjd query job_info = some i →
        ∃ job : CasJob τ, job_info[i]? = some job ∧
          pyStrip job.Query = pyStrip query ∧
          ∀ (j : ℕ) (job2 : CasJob τ), job_info[j]? = some job2 →
            pyStrip job2.Query = pyStrip query →
            mjd job2.TimeSubmit ≤ mjd job.TimeSubmit) :=
  ⟨find_latest_query_eq_none_iff mjd query job_info,
   fun i job hi hq hu => find_latest_query_unique mjd query job_info i job hi hq hu,
   fun i h => find_latest_query_eq_some mjd query job_info i h⟩

/-- Witness for C2: on a one-entry history whose stripped query matches,
`find_latest_query` returns index 0. -/
theorem find_latest_query_spec_witness :
    find_latest_query (fun q : ℚ => q) "select 1"
      [⟨"  select 1 ", "5", (3 : ℚ)⟩] = some 0 :=
  (find_latest_query_spec (fun q : ℚ => q) "select 1"
      [⟨"  select 1 ", "5", (3 : ℚ)⟩]).2.1 0 ⟨"  select 1 ", "5", (3 : ℚ)⟩
    (by decide) (by decide)
    (by
      intro j job2 hj hq
      match j with
      | 0 => rfl
      | k + 1 => simp at hj)

/-- C1 (amended): with `overwrite_casjobs_query = False`,
`execute_casjobs_query` submits the query to the job queue if and only if
`find_latest_query` finds no previous submission in the (reversed) job
history, or the most recent matching job's status code is '2' (canceling),
'3' (cancelled) or '4' (failed); and in every case where it submits it
returns 0 (job not ready). -/
theorem execute_casjobs_submit_iff {τ : Type} (mjd : τ → ℚ)
    (query table_name : String) (download_result : Bool)
    (job_info_raw : List (CasJob τ)) (download_outcome : Except String Unit) :
    ((execute_casjobs_query mjd query table_name false download_result
        job_info_raw download_outcome).submitted = true ↔
      find_latest_query mjd query job_info_raw.reverse = none ∨
      ∃ (i : ℕ) (job : CasJob τ),
        find_latest_query mjd query job_info_raw.reverse = some i ∧
        job_info_raw.reverse[i]? = some job ∧
        (job.Status = "2" ∨ job.Status = "3" ∨ job.Status = "4"))
    ∧ ((execute_casjobs_query mjd query table_name false download_result
        job_info_raw download_outcome).submitted = true →
      (execute_casjobs_query mjd query table_name false download_result
        job_info_raw download_outcome).result = Except.ok 0) := by
  rcases hfind : find_latest_query mjd query job_info_raw.reverse with _ | i
  · rw [execute_casjobs_query_of_find_none mjd query table_name false
      download_result job_info_raw download_outcome hfind]
    simp [cas_finish, hfind]
  · rcases hget : job_info_raw.reverse[i]? with _ | job
    · have hout : execute_casjobs_query mjd query table_name false download_result
          job_info_raw download_outcome =
          ⟨Except.error "IndexError", false, false⟩ := by
        unfold execute_casjobs_query
        simp only [hfind, hget]
      rw [hout]
      simp [hfind, hget]
    · rw [execute_casjobs_query_of_find_some mjd query table_name false
        download_result job_info_raw download_outcome i job hfind hget]
      by_cases h01 : job.Status = "0" ∨ job.Status = "1"
      · rw [if_pos h01]
        rcases h01 with h | h <;>
          simp [cas_finish, hfind, hget, h]
      · rw [if_neg h01]
        by_cases h5 : job.Status = "5"
        · rw [if_pos (by exact ⟨h5, by simp⟩)]
          rcases download_outcome with _ | e <;> cases download_result <;>
            simp [cas_finish, hfind, hget, h5]
        · rw [if_neg (by simp [h5])]
          by_cases h234 : job.Status = "2" ∨ job.Status = "3" ∨ job.Status = "4"
          · rw [if_pos h234]
            simp [cas_finish, hfind, hget, h234]
          · rw [if_neg h234]
            simp [cas_finish, hfind, hget, h234]

/-- Witness for C1 (amended): a previously failed job (status '4') leads to a
submission that reports 0. -/
theorem execute_casjobs_submit_iff_witness :
    (execute_casjobs_query (fun q : ℚ => q) "q" "t" false true
      [⟨"q", "4", (0 : ℚ)⟩] (Except.ok ())).result = Except.ok 0 :=
  (execute_casjobs_submit_iff (fun q : ℚ => q) "q" "t" true
    [⟨"q", "4", (0 : ℚ)⟩] (Except.ok ())).2 (by decide)

/-- Counterexample to C1 as stated: with a single matching job whose status
is '3' (cancelled, not failed), `execute_casjobs_query` still submits the
query, although the query has been submitted before and its most recent job
did not fail (status '3' differs from the 'failed' code '4'). -/
theorem execute_casjobs_submit_iff_counterexample :
    (execute_casjobs_query (fun q : ℚ => q) "q" "t" false true
      [⟨"q", "3", (0 : ℚ)⟩] (Except.ok ())).submitted = true ∧
    find_latest_query (fun q : ℚ => q) "q"
      ([⟨"q", "3", (0 : ℚ)⟩] : List (CasJob ℚ)).reverse = some 0 ∧
    ([⟨"q", "3", (0 : ℚ)⟩] : List (CasJob ℚ)).reverse[0]? =
      some ⟨"q", "3", (0 : ℚ)⟩ ∧
    ("3" : String) ≠ "4" := by decide

/-- C3: with `overwrite_casjobs_query = False`, if the most recent matching
job's status code is '5' (finished) and `download_result` is `True` and the
download succeeds, the result table is downloaded (`downloaded = true`) and
the function returns 1; if the status code is '0' (ready) or '1' (started),
the function neither submits nor downloads and returns 0. -/
theorem execute_casjobs_finished_or_running {τ : Type} (mjd : τ → ℚ)
    (query table_name : String) (job_info_raw : List (CasJob τ))
    (download_outcome : Except String Unit) (i : ℕ) (job : CasJob τ)
    (hfind : find_latest_query mjd query job_info_raw.reverse = some i)
    (hget : job_info_raw.reverse[i]? = some job) :
    (job.Status = "5" → download_outcome = Except.ok () →
      execute_casjobs_query mjd query table_name false true job_info_raw
        download_outcome = ⟨Except.ok 1, false, true⟩)
    ∧ ((job.Status = "0" ∨ job.Status = "1") → ∀ download_result : Bool,
      execute_casjobs_query mjd query table_name false download_result
        job_info_raw download_outcome = ⟨Except.ok 0, false, false⟩) := by
  constructor
  · intro h5 hdl
    rw [execute_casjobs_query_of_find_some mjd query table_name false
      true job_info_raw download_outcome i job hfind hget]
    rw [if_neg (by simp [h5]), if_pos (by exact ⟨h5, by simp⟩), if_pos rfl, hdl]
    rfl
  · intro h01 download_result
    rw [execute_casjobs_query_of_find_some mjd query table_name false
      download_result job_info_raw download_outcome i job hfind hget]
    rw [if_pos h01]
    rfl

/-- Witness for C3: a finished job with a successful download yields
`job_is_ready = 1` and a download; a started job yields 0 with no actions. -/
theorem execute_casjobs_finished_or_running_witness :
    execute_casjobs_query (fun q : ℚ => q) "q" "t" false true
      [⟨"q", "5", (0 : ℚ)⟩] (Except.ok ()) = ⟨Except.ok 1, false, true⟩ :=
  (execute_casjobs_finished_or_running (fun q : ℚ => q) "q" "t"
    [⟨"q", "5", (0 : ℚ)⟩] (Except.ok ()) 0 ⟨"q", "5", (0 : ℚ)⟩
    (by decide) (by decide)).1 rfl rfl

/-- C6: if the table download inside `execute_casjobs_query` fails with
message `e`, the function raises an exception whose message contains `e` and
the table name, and performs no submission or other recovery on that path. -/
theorem execute_casjobs_download_failure {τ : Type} (mjd : τ → ℚ)
    (query table_name : String) (job_info_raw : List (CasJob τ)) (e : String)
    (i : ℕ) (job : CasJob τ)
    (hfind : find_latest_query mjd query job_info_raw.reverse = some i)
    (hget : job_info_raw.reverse[i]? = some job)
    (hstatus : job.Status = "5") :
    execute_casjobs_query mjd query table_name false true job_info_raw
      (Except.error e) =
      ⟨Except.error ("casjobs table download failed with message: " ++ e ++
        "\nPlease check that table " ++ table_name ++ " is not empty."),
        false, false⟩ := by
  rw [execute_casjobs_query_of_find_some mjd query table_name false
    true job_info_raw (Except.error e) i job hfind hget]
  rw [if_neg (by simp [hstatus]), if_pos (by exact ⟨hstatus, by simp⟩), if_pos rfl]

/-- Witness for C6: a failing download on a finished job raises the
re-wrapped exception message naming the original error and the table. -/
theorem execute_casjobs_download_failure_witness :
    execute_casjobs_query (fun q : ℚ => q) "q" "tbl" false true
      [⟨"q", "5", (0 : ℚ)⟩] (Except.error "boom") =
      ⟨Except.error ("casjobs table download failed with message: " ++ "boom" ++
        "\nPlease check that table " ++ "tbl" ++ " is not empty."),
        false, false⟩ :=
  execute_casjobs_download_failure (fun q : ℚ => q) "q" "tbl"
    [⟨"q", "5", (0 : ℚ)⟩] "boom" 0 ⟨"q", "5", (0 : ℚ)⟩
    (by decide) (by decide) rfl

/-- On-disk state seen by `return_gacs_query_as_table`: contents of
`output_file_seed + '.vot'` and `output_file_seed + '.fits'` (`none` when the
file does not exist).  Tables are abstract (`α`). -/
structure GacsFS (α : Type) where
  vot : Option α
  fits : Option α
deriving DecidableEq, Repr

/-- Result of one call to `return_gacs_query_as_table`: the returned table
(or the raised exception), the new file-system state, and whether the
remote Gaia archive was contacted. -/
structure GacsOutcome (α : Type) where
  result : Except String α
  fs : GacsFS α
  contacted_remote : Bool
deriving Repr

/-- `return_gacs_query_as_table` from `archive_helpers.py`.
`remote` is the table the GACS query returns (written to the `.vot` file by
`pgp.retrieveQueryResult`); `clean` models the removal of object-dtype
columns performed before the `.fits` file is written.  The code branches on
`overwrite | (not isfile(.vot))`; in the else branch it reads the `.fits`
file (raising if it does not exist). -/
def return_gacs_query_as_table {α : Type} (clean : α → α) (overwrite : Bool)
    (remote : α) (fs : GacsFS α) : GacsOutcome α :=
  if overwrite || !fs.vot.isSome then
    let d := clean remote
    ⟨Except.ok d, ⟨some remote, some d⟩, true⟩
  else
    match fs.fits with
    | some d => ⟨Except.ok d, fs, false⟩
    | none => ⟨Except.error "FileNotFoundError: fits file", fs, false⟩

/-- On-disk state seen by `return_vizier_catalog_as_table`: contents of the
`{catalog_name}_query.txt` file (raw query output, type `β`) and of the
corresponding `.fits` file (a table, type `α`). -/
structure VizFS (α β : Type) where
  queryfile : Option β
  fits : Option α
deriving DecidableEq, Repr

/-- Result of one call to `return_vizier_catalog_as_table`: the returned
table (or the raised exception), the new file-system state, and whether the
external `vizquery` command was executed. -/
structure VizOutcome (α β : Type) where
  result : Except String α
  fs : VizFS α β
  ran_vizquery : Bool
deriving Repr

/-- `return_vizier_catalog_as_table` from `archive_helpers.py`.
`vizout` is what the shelled-out `vizquery ... > queryfile` command leaves in
the query file; `parse` models `Table.read(queryfile, format='ascii.basic',
...)`.  Python's `not(os.path.isfile(f)) | overwrite` parses as
`not (os.path.isfile(f) | overwrite)` because `|` binds tighter than `not`,
and the embedding reproduces exactly that. -/
def return_vizier_catalog_as_table {α β : Type} (parse : β → α) (vizout : β)
    (overwrite : Bool) (fs : VizFS α β) : VizOutcome α β :=
  let run := !(fs.queryfile.isSome || overwrite)
  let fs1 : VizFS α β := if run then ⟨some vizout, fs.fits⟩ else fs
  if !(fs1.fits.isSome || overwrite) then
    match fs1.queryfile with
    | some q => ⟨Except.ok (parse q), ⟨fs1.queryfile, some (parse q)⟩, run⟩
    | none => ⟨Except.error "FileNotFoundError: queryfile", fs1, run⟩
  else
    match fs1.fits with
    | some t => ⟨Except.ok t, fs1, run⟩
    | none => ⟨Except.error "FileNotFoundError: fits file", fs1, run⟩

/-- C4 (amended): with `overwrite = False` the cache gate of
`return_gacs_query_as_table` is the existence of the `.vot` file, not of
the `.fits` file: when the `.vot` file exists the function contacts no
remote service and returns the content of the `.fits` file, and when the
`.vot` file is missing it executes the remote query and writes both files
before returning the fresh result.  `return_vizier_catalog_as_table` keys
on the query text file: when it exists no `vizquery` runs and the function
returns the FITS cache if present, else parses the query file and writes
the FITS cache; when it is missing, `vizquery` runs and (with no stale FITS
cache) the parsed fresh output is written and returned. -/
theorem cache_or_fetch_spec {α β : Type} (clean : α → α) (parse : β → α)
    (remote : α) (vizout : β) (gfs : GacsFS α) (vfs : VizFS α β) :
    ((∀ v : α, gfs.vot = some v →
        (return_gacs_query_as_table clean false remote gfs).contacted_remote =
          false
        ∧ ∀ d : α, gfs.fits = some d →
            (return_gacs_query_as_table clean false remote gfs).result =
              Except.ok d)
      ∧ (gfs.vot = none →
          return_gacs_query_as_table clean false remote gfs =
            ⟨Except.ok (clean remote), ⟨some remote, some (clean remote)⟩, true⟩))
    ∧ ((∀ q : β, vfs.queryfile = some q →
          (return_vizier_catalog_as_table parse vizout false vfs).ran_vizquery =
            false
          ∧ (∀ t : α, vfs.fits = some t →
              (return_vizier_catalog_as_table parse vizout false vfs).result =
                Except.ok t)
          ∧ (vfs.fits = none →
              return_vizier_catalog_as_table parse vizout false vfs =
                ⟨Except.ok (parse q), ⟨some q, some (parse q)⟩, false⟩))
      ∧ (vfs.queryfile = none →
          (return_vizier_catalog_as_table parse vizout false vfs).ran_vizquery =
            true
          ∧ (vfs.fits = none →
              return_vizier_catalog_as_table parse vizout false vfs =
                ⟨Except.ok (parse vizout), ⟨some vizout, some (parse vizout)⟩,
                  true⟩))) := by
  obtain ⟨gvot, gfits⟩ := gfs
  obtain ⟨vq, vfits⟩ := vfs
  refine ⟨⟨?_, ?_⟩, ?_, ?_⟩
  · rintro v rfl
    constructor
    · rcases gfits with _ | d <;> rfl
    · rintro d rfl
      rfl
  · rintro rfl
    rfl
  · rintro q rfl
    rcases vfits with _ | t
    · refine ⟨rfl, ?_, ?_⟩
      · rintro t ht
        simp at ht
      · intro _
        rfl
    · refine ⟨rfl, ?_, ?_⟩
      · rintro t' ht'
        cases ht'
        rfl
      · rintro ht
        simp at ht
  · rintro rfl
    rcases vfits with _ | t
    · exact ⟨rfl, fun _ => rfl⟩
    · refine ⟨rfl, ?_⟩
      rintro ht
      simp at ht

/-- Witness for C4 (amended): with both cache files present and
`overwrite=False`, the gacs wrapper returns the `.fits` content. -/
theorem cache_or_fetch_spec_witness :
    (return_gacs_query_as_table (fun n : ℕ => n) false 7
      (⟨some 1, some 5⟩ : GacsFS ℕ)).result = Except.ok 5 :=
  ((cache_or_fetch_spec (fun n : ℕ => n) (fun n : ℕ => n) 7 0
      (⟨some 1, some 5⟩ : GacsFS ℕ) (⟨none, none⟩ : VizFS ℕ ℕ)).1.1 1 rfl).2 5 rfl

/-- Counterexample to C4 as stated: with `overwrite=False`, the `.fits`
cache file present (content 5) and the `.vot` file absent,
`return_gacs_query_as_table` still contacts the remote service and returns
the fresh remote table (7) instead of the cached `.fits` table. -/
theorem cache_or_fetch_counterexample :
    (⟨none, some 5⟩ : GacsFS ℕ).fits.isSome = true ∧
    (return_gacs_query_as_table (fun n : ℕ => n) false 7
      (⟨none, some 5⟩ : GacsFS ℕ)).contacted_remote = true ∧
    (return_gacs_query_as_table (fun n : ℕ => n) false 7
      (⟨none, some 5⟩ : GacsFS ℕ)).result = Except.ok 7 :=
  ⟨rfl, rfl, rfl⟩

/-- C5 fails on the code: with `overwrite=True` and no cache files present,
`return_vizier_catalog_as_table` never executes `vizquery` (in
`not(os.path.isfile(queryfile)) | overwrite` the `|` binds before `not`, so
the condition is `not (isfile or overwrite)`, false whenever
`overwrite=True`) and instead raises while reading the absent FITS file. -/
theorem return_vizier_overwrite_skips_query :
    return_vizier_catalog_as_table (fun b : ℕ => b) 42 true
      (⟨none, none⟩ : VizFS ℕ ℕ) =
      ⟨Except.error "FileNotFoundError: fits file", ⟨none, none⟩, false⟩ := by
  rfl

/-- `f_test_probability` from `statistics_helpers.py`.  `betai a b x` is
scipy's regularized incomplete beta function `betainc(a, b, x)` (an external
library call), passed as a parameter; `Except.error` models the raised
`RuntimeWarning`. -/
def f_test_probability (betai : ℚ → ℚ → ℚ → ℚ) (N p1 Chi2_1 p2 Chi2_2 : ℚ) :
    Except String ℚ :=
  let nu1 := p2 - p1
  let nu2 := N - p2
  if Chi2_1 < Chi2_2 then Except.error "Solution better with less parameters"
  else
    let F0 := nu2 / nu1 * (Chi2_1 - Chi2_2) / Chi2_2
    Except.ok (betai (0.5 * nu2) (0.5 * nu1) (nu2 / (nu2 + F0 * nu1)))

/-- `binomial_fraction_uncertainty` from `statistics_helpers.py`.
`beta_ppf q a b` models the `dist.beta.ppf(q, a, b)` quantile call (an
external library call), passed as a parameter. -/
def binomial_fraction_uncertainty (beta_ppf : ℚ → ℚ → ℚ → ℚ)
    (N_events N_reference : ℚ) : ℚ × ℚ × ℚ :=
  let c : ℚ := 0.683
  let k := N_events
  let n := N_reference
  if n = 0 then
    let p_lower : ℚ := 0
    let p_upper : ℚ := 0
    let frac : ℚ := 0
    (frac, frac - p_lower, p_upper - frac)
  else
    let p_lower := beta_ppf ((1 - c) / 2) (k + 1) (n - k + 1)
    let p_upper := beta_ppf (1 - (1 - c) / 2) (k + 1) (n - k + 1)
    let frac := k / n
    (frac, frac - p_lower, p_upper - frac)

/-- C7: when the model with more parameters fits at least as well
(Chi2_2 ≤ Chi2_1), `f_test_probability` returns exactly the closed-form
F-test probability: with nu1 = p2 - p1, nu2 = N - p2 and
F0 = (nu2/nu1)·(Chi2_1 - Chi2_2)/Chi2_2 it returns the regularized
incomplete beta function evaluated at (nu2/2, nu1/2, nu2/(nu2 + F0·nu1)). -/
theorem f_test_probability_formula (betai : ℚ → ℚ → ℚ → ℚ)
    (N p1 Chi2_1 p2 Chi2_2 : ℚ) (h : Chi2_2 ≤ Chi2_1) :
    f_test_probability betai N p1 Chi2_1 p2 Chi2_2 =
      Except.ok (betai ((N - p2) / 2) ((p2 - p1) / 2)
        ((N - p2) / ((N - p2) +
          ((N - p2) / (p2 - p1) * (Chi2_1 - Chi2_2) / Chi2_2) * (p2 - p1)))) := by
  simp only [f_test_probability]
  rw [if_neg (not_lt.mpr h)]
  have e1 : (0.5 : ℚ) * (N - p2) = (N - p2) / 2 := by ring
  have e2 : (0.5 : ℚ) * (p2 - p1) = (p2 - p1) / 2 := by ring
  rw [e1, e2]

/-- Witness for C7: a concrete nested-model comparison (N=10, p1=2, p2=4,
Chi2_1=8, Chi2_2=4) with the third-argument projection as `betai`. -/
theorem f_test_probability_formula_witness :
    f_test_probability (fun _ _ x => x) 10 2 8 4 4 =
      Except.ok ((10 - 4) / ((10 - 4) +
        ((10 - 4) / (4 - 2) * (8 - 4) / 4) * (4 - 2))) :=
  f_test_probability_formula (fun _ _ x => x) 10 2 8 4 4 (by norm_num)

/-- C10: `f_test_probability` raises the RuntimeWarning 'Solution better
with less parameters' exactly when Chi2_1 < Chi2_2, and returns normally
whenever Chi2_1 ≥ Chi2_2. -/
theorem f_test_probability_raises_iff (betai : ℚ → ℚ → ℚ → ℚ)
    (N p1 Chi2_1 p2 Chi2_2 : ℚ) :
    ((f_test_probability betai N p1 Chi2_1 p2 Chi2_2 =
        Except.error "Solution better with less parameters") ↔
      Chi2_1 < Chi2_2)
    ∧ (Chi2_2 ≤ Chi2_1 → ∃ v : ℚ,
        f_test_probability betai N p1 Chi2_1 p2 Chi2_2 = Except.ok v) := by
  constructor
  · constructor
    · intro he
      by_cases hlt : Chi2_1 < Chi2_2
      · exact hlt
      · simp only [f_test_probability] at he
        rw [if_neg hlt] at he
        exact absurd he (by simp)
    · intro hlt
      simp only [f_test_probability]
      rw [if_pos hlt]
  · intro h
    refine ⟨betai (0.5 * (N - p2)) (0.5 * (p2 - p1))
      ((N - p2) / ((N - p2) +
        (N - p2) / (p2 - p1) * (Chi2_1 - Chi2_2) / Chi2_2 * (p2 - p1))), ?_⟩
    simp only [f_test_probability]
    rw [if_neg (not_lt.mpr h)]

/-- Witness for C10: Chi2_1 = 1 < Chi2_2 = 2 raises the warning. -/
theorem f_test_probability_raises_iff_witness :
    f_test_probability (fun _ _ x => x) 5 1 1 2 2 =
      Except.error "Solution better with less parameters" :=
  (f_test_probability_raises_iff (fun _ _ x => x) 5 1 1 2 2).1.mpr (by norm_num)

/-- C8: for every N_events = k and N_reference = n > 0,
`binomial_fraction_uncertainty` returns
(k/n, k/n - p_lower, p_upper - k/n) where p_lower and p_upper are the
Beta(k+1, n-k+1) quantiles at (1-c)/2 and 1-(1-c)/2 with c = 0.683. -/
theorem binomial_fraction_uncertainty_formula (beta_ppf : ℚ → ℚ → ℚ → ℚ)
    (k n : ℚ) (h : 0 < n) :
    binomial_fraction_uncertainty beta_ppf k n =
      (k / n,
       k / n - beta_ppf ((1 - 0.683) / 2) (k + 1) (n - k + 1),
       beta_ppf (1 - (1 - 0.683) / 2) (k + 1) (n - k + 1) - k / n) := by
  simp only [binomial_fraction_uncertainty]
  rw [if_neg (ne_of_gt h)]

/-- Witness for C8: k = 3 events out of n = 20, with an explicit quantile
function. -/
theorem binomial_fraction_uncertainty_formula_witness :
    binomial_fraction_uncertainty (fun q a b => q + a + b) 3 20 =
      (3 / 20,
       3 / 20 - ((1 - 0.683) / 2 + (3 + 1) + (20 - 3 + 1)),
       (1 - (1 - 0.683) / 2 + (3 + 1) + (20 - 3 + 1)) - 3 / 20) :=
  binomial_fraction_uncertainty_formula (fun q a b => q + a + b) 3 20 (by norm_num)

/-- C9: with N_reference = 0, `binomial_fraction_uncertainty` returns
(0, 0, 0) for every N_events, and the result does not depend on the quantile
function at all: the zero-denominator branch is taken before any quantile
evaluation or division. -/
theorem binomial_fraction_uncertainty_zero_reference
    (beta_ppf beta_ppf2 : ℚ → ℚ → ℚ → ℚ) (k : ℚ) :
    binomial_fraction_uncertainty beta_ppf k 0 = (0, 0, 0) ∧
    binomial_fraction_uncertainty beta_ppf k 0 =
      binomial_fraction_uncertainty beta_ppf2 k 0 := by
  constructor <;> simp [binomial_fraction_uncertainty]

end Uhelpers
